import Mathlib

/-!
Verification of the `@nullstyle/ase-format` Aseprite codec against its
natural-language specification.  The TypeScript sources are shallowly
embedded: pure functions become Lean functions, mutation-heavy parsing
code becomes explicit state passing, JavaScript numbers become `Nat`/`Int`
with explicit reductions modulo `2^w` where 32/16-bit wrapping matters,
and code that throws becomes `Except`-valued.
-/

namespace Ase

/-! ## Wire primitives

Little-endian byte images of the `BinaryWriter` integer methods
(`src/binary/writer.ts`).  `DataView.setUint16`/`setUint32` wrap their
argument modulo the field width, hence the `% 2 ^ w`. -/

/-- Bytes written by `BinaryWriter.u16` (little-endian, wraps mod 2^16). -/
def u16Bytes (v : Nat) : List Nat :=
  [v % 256, v / 256 % 256]

/-- Bytes written by `BinaryWriter.u32` (little-endian, wraps mod 2^32). -/
def u32Bytes (v : Nat) : List Nat :=
  [v % 256, v / 256 % 256, v / 65536 % 256, v / 16777216 % 256]

/-- Read back a little-endian u16 at byte offset `i` of a byte list. -/
def readU16At (bs : List Nat) (i : Nat) : Nat :=
  bs.getD i 0 + 256 * bs.getD (i + 1) 0

/-- Read back a little-endian u32 at byte offset `i` of a byte list. -/
def readU32At (bs : List Nat) (i : Nat) : Nat :=
  bs.getD i 0 + 256 * bs.getD (i + 1) 0 + 65536 * bs.getD (i + 2) 0 +
    16777216 * bs.getD (i + 3) 0

/-- File magic (`types.ts` `ASE_FILE_MAGIC`). -/
def ASE_FILE_MAGIC : Nat := 0xa5e0

/-- Frame magic (`types.ts` `ASE_FRAME_MAGIC`). -/
def ASE_FRAME_MAGIC : Nat := 0xf1fa

/-! ## Tile value codec (`src/util/tile.ts`)

Tile values are 32-bit patterns stored in a `Uint32Array`; JavaScript's
`&`/`|` produce the same 32-bit patterns as `Nat.land`/`Nat.lor` on
values below `2^32`, so the codec is embedded over `Nat` bit patterns. -/

/-- Tilemap bitmask configuration (`types.ts` `TilemapMasks`). -/
structure TilemapMasks where
  tileIdMask : Nat
  xFlipMask : Nat
  yFlipMask : Nat
  rotationMask : Nat
deriving DecidableEq

/-- Decoded tile information (`src/util/tile.ts` `DecodedTile`). -/
structure DecodedTile where
  tileId : Nat
  xFlip : Bool
  yFlip : Bool
  rotation : Bool
deriving DecidableEq

/-- `decodeTileValue` from `src/util/tile.ts`. -/
def decodeTileValue (value : Nat) (masks : TilemapMasks) : DecodedTile :=
  { tileId := value &&& masks.tileIdMask
    xFlip := value &&& masks.xFlipMask != 0
    yFlip := value &&& masks.yFlipMask != 0
    rotation := value &&& masks.rotationMask != 0 }

/-- `encodeTileValue` from `src/util/tile.ts`: start from the masked tile
id and OR in each flag mask whose boolean is set. -/
def encodeTileValue (tile : DecodedTile) (masks : TilemapMasks) : Nat :=
  let v0 := tile.tileId &&& masks.tileIdMask
  let v1 := if tile.xFlip then v0 ||| masks.xFlipMask else v0
  let v2 := if tile.yFlip then v1 ||| masks.yFlipMask else v1
  if tile.rotation then v2 ||| masks.rotationMask else v2

/-! ## Frame-header chunk count (`parse.ts` and `encode.ts`) -/

/-- The chunk-count determination inlined in `parseAseprite`
(`parse.ts`): `if (newChunkCount === 0) old; else if (old === 0xffff)
new; else old`. -/
def determineChunkCount (oldChunkCount newChunkCount : Nat) : Nat :=
  if newChunkCount = 0 then oldChunkCount
  else if oldChunkCount = 0xffff then newChunkCount
  else oldChunkCount

/-- Modelled from the spec: "if `new-chunk-count != 0` and
`old-chunk-count == 0xFFFF`, use `new-chunk-count`; else use
`old-chunk-count`". -/
def specChunkCount (oldChunkCount newChunkCount : Nat) : Nat :=
  if newChunkCount ≠ 0 ∧ oldChunkCount = 0xffff then newChunkCount
  else oldChunkCount

/-- `encodeFrameHeader` from `src/encode.ts`, as the 16-byte image it
writes: u32 frame size, u16 frame magic, u16 old chunk count (clamped to
0xFFFF when the count exceeds 0xFFFE), u16 duration, two reserved zero
bytes, u32 new chunk count. -/
def encodeFrameHeader (frameSize chunkCount durationMs : Nat) : List Nat :=
  u32Bytes frameSize ++
  u16Bytes ASE_FRAME_MAGIC ++
  u16Bytes (if chunkCount > 0xfffe then 0xffff else chunkCount) ++
  u16Bytes durationMs ++
  [0, 0] ++
  u32Bytes chunkCount

/-! ## Data model (`src/types.ts`)

Typed values carried by the decoded file.  JavaScript numbers holding
wire integers are `Nat` (unsigned reads) or `Int` (signed reads); a
user-data property number is split into the integer case
(`Number.isInteger` true) and the non-integer case, whose IEEE-754 bit
pattern is carried as an uninterpreted payload. -/

/-- A JavaScript number as stored in a property value: either an integer
or a non-integer double (carried as its IEEE-754 bit pattern, which no
claim inspects). -/
inductive JsNumber where
  | intVal (i : Int)
  | doubleVal (bits : Nat)
deriving DecidableEq

/-- `types.ts` `PropertyValue` (tagged by JavaScript runtime type). -/
inductive PropertyValue where
  | vNull
  | vBool (b : Bool)
  | vNum (n : JsNumber)
  | vBigInt (i : Int)
  | vStr (s : String)
  | vPoint (x y : Int)
  | vSize (width height : Int)
  | vRect (x y width height : Int)
  | vVector (elems : List PropertyValue)
  | vMap (entries : List (String × PropertyValue))
  | vUnknown (unknownType : Nat)

/-- `types.ts` `PropertiesMap`: extension-keyed groups of named
properties, in `Map` insertion order. -/
def PropertiesMap : Type := List (String × List (String × PropertyValue))

/-- RGBA color record. -/
structure RGBA where
  r : Nat
  g : Nat
  b : Nat
  a : Nat
deriving DecidableEq

/-- `types.ts` `UserData`. -/
structure UserData where
  text : Option String
  color : Option RGBA
  properties : Option PropertiesMap

/-- `types.ts` `Layer`. -/
structure Layer where
  flags : Nat
  type : Nat
  childLevel : Nat
  defaultWidth : Nat
  defaultHeight : Nat
  blendMode : Nat
  opacity : Nat
  name : String
  tilesetIndex : Option Nat
  userData : Option UserData

/-- `types.ts` `Tag`. -/
structure Tag where
  fromFrame : Nat
  toFrame : Nat
  direction : Nat
  repeatCount : Nat
  color : Nat × Nat × Nat
  name : String
  userData : Option UserData

/-- 9-patch center bounds of a slice key. -/
structure SliceCenter where
  x : Int
  y : Int
  width : Nat
  height : Nat
deriving DecidableEq

/-- Pivot point of a slice key. -/
structure SlicePivot where
  x : Int
  y : Int
deriving DecidableEq

/-- `types.ts` `SliceKey`. -/
structure SliceKey where
  frameIndex : Nat
  x : Int
  y : Int
  width : Nat
  height : Nat
  center : Option SliceCenter
  pivot : Option SlicePivot
deriving DecidableEq

/-- `types.ts` `Slice`. -/
structure Slice where
  name : String
  flags : Nat
  keys : List SliceKey
  userData : Option UserData

/-- `types.ts` `Tileset`.  `tileUserData` is a JavaScript array indexed
sparsely, modelled with `Option` holes. -/
structure Tileset where
  id : Nat
  flags : Nat
  tileCount : Nat
  tileWidth : Nat
  tileHeight : Nat
  baseIndex : Int
  name : String
  externalFileId : Option Nat
  externalTilesetId : Option Nat
  compressedData : Option (List Nat)
  userData : Option UserData
  tileUserData : List (Option UserData)

/-- `types.ts` `CelExtra`.  The four fixed-point fields are carried as
their raw i32 wire values (value × 65536). -/
structure CelExtra where
  flags : Nat
  preciseXRaw : Int
  preciseYRaw : Int
  celWidthRaw : Int
  celHeightRaw : Int
deriving DecidableEq

/-- The variant part of `types.ts`'s `Cel` union. -/
inductive CelVariant where
  | rawImage (width height : Nat) (bytes : List Nat)
  | linked (linkedFrameIndex : Nat)
  | compressedImage (width height : Nat) (bytes : List Nat)
  | compressedTilemap (width height bitsPerTile : Nat)
      (masks : TilemapMasks) (bytes : List Nat)
deriving DecidableEq

/-- Common cel fields (`types.ts` `CelBase`) plus the variant. -/
structure Cel where
  layerIndex : Nat
  x : Int
  y : Int
  opacity : Nat
  zIndex : Int
  variant : CelVariant
  userData : Option UserData
  extra : Option CelExtra

/-- `CelType` tag of a cel's variant (`types.ts` `CelType`). -/
def Cel.type (c : Cel) : Nat :=
  match c.variant with
  | .rawImage _ _ _ => 0
  | .linked _ => 1
  | .compressedImage _ _ _ => 2
  | .compressedTilemap _ _ _ _ _ => 3

/-- `types.ts` `Palette` entry. -/
structure PaletteEntry where
  r : Nat
  g : Nat
  b : Nat
  a : Nat
  name : Option String
deriving DecidableEq

/-- `types.ts` `Palette`.  Entries may contain holes when synthesized
from old-palette packets (JavaScript sparse array). -/
structure Palette where
  size : Nat
  firstIndex : Nat
  lastIndex : Int
  entries : List (Option PaletteEntry)
deriving DecidableEq

/-- One packet of an old-palette chunk. -/
structure OldPalettePacket where
  skipCount : Nat
  colors : List (Nat × Nat × Nat)
deriving DecidableEq

/-- `types.ts` `ColorProfile`. -/
structure ColorProfile where
  type : Nat
  flags : Nat
  gammaRaw : Option Int
  iccData : Option (List Nat)
deriving DecidableEq

/-- `types.ts` `ExternalFile`. -/
structure ExternalFile where
  id : Nat
  type : Nat
  fileName : String
deriving DecidableEq

/-- `types.ts` `UnknownChunk`: unknown type code plus raw payload. -/
structure UnknownChunk where
  type : Nat
  rawData : List Nat
deriving DecidableEq

/-- `types.ts` `AseHeader`. -/
structure AseHeader where
  fileSize : Nat
  magic : Nat
  frameCount : Nat
  width : Nat
  height : Nat
  colorDepth : Nat
  flags : Nat
  speed : Nat
  transparentIndex : Nat
  colorCount : Nat
  pixelWidth : Nat
  pixelHeight : Nat
  gridX : Int
  gridY : Int
  gridWidth : Nat
  gridHeight : Nat
deriving DecidableEq

/-- Parsed chunk union (`types.ts` `Chunk`), at the level of already
decoded payloads. -/
inductive Chunk where
  | layerChunk (layer : Layer)
  | celChunk (cel : Cel)
  | celExtraChunk (extra : CelExtra)
  | paletteChunk (palette : Palette)
  | oldPaletteChunk (type : Nat) (packets : List OldPalettePacket)
  | tagsChunk (tags : List Tag)
  | userDataChunk (userData : UserData)
  | sliceChunk (slice : Slice)
  | tilesetChunk (tileset : Tileset)
  | colorProfileChunk (profile : ColorProfile)
  | externalFilesChunk (files : List ExternalFile)
  | unknownChunk (type : Nat) (rawData : List Nat)

/-- `types.ts` `Frame`. -/
structure Frame where
  durationMs : Nat
  cels : List Cel
  chunks : Option (List Chunk)

/-- `types.ts` `AsepriteFile`.  Optional fields that the source assigns
only conditionally are `Option`-valued. -/
structure AsepriteFile where
  header : AseHeader
  frames : List Frame
  layers : List Layer
  tags : Option (List Tag)
  slices : Option (List Slice)
  palette : Option Palette
  tilesets : Option (List Tileset)
  colorProfile : Option ColorProfile
  externalFiles : Option (List ExternalFile)
  userData : Option UserData
  unknownChunks : Option (List UnknownChunk)

/-! ## Errors (`types.ts` `AseFormatError` and plain `Error`)

A thrown JavaScript error is either a plain `Error` or an
`AseFormatError` with an error-code string; the optional byte-offset
diagnostics are not carried because no modelled call site passes them. -/

/-- A thrown JavaScript error. -/
inductive JsError where
  | plainError (message : String)
  | aseFormatError (message : String) (code : String)
deriving DecidableEq

/-- `types.ts` `AseErrorCode.INVALID_CEL_TYPE`. -/
def INVALID_CEL_TYPE : String := "INVALID_CEL_TYPE"

/-- `types.ts` `AseErrorCode.INVALID_LINKED_CEL`. -/
def INVALID_LINKED_CEL : String := "INVALID_LINKED_CEL"

/-- `types.ts` `AseErrorCode.BAD_CHUNK_SIZE`. -/
def BAD_CHUNK_SIZE : String := "BAD_CHUNK_SIZE"

/-! ## Tag playback (`src/util/tags.ts` `resolveTagFrameRange`)

The four `for` loops run over JavaScript numbers; they are embedded over
`Int` (the loop counter of the reverse loops passes below `from`, which
on `u16`-valued frames can reach `-1`). -/

/-- An ascending counter loop pushing its counter, given its iteration
count: `fuel` iterations starting at `i`. -/
def ascLoopAux (fuel : Nat) (i : Int) : List Int :=
  match fuel with
  | 0 => []
  | n + 1 => i :: ascLoopAux n (i + 1)

/-- A descending counter loop pushing its counter, given its iteration
count. -/
def descLoopAux (fuel : Nat) (i : Int) : List Int :=
  match fuel with
  | 0 => []
  | n + 1 => i :: descLoopAux n (i - 1)

/-- `for (let i = from; i <= to; i++) push(i)`: runs `to + 1 - from`
times (none when `to < from`). -/
def ascLoop (i toF : Int) : List Int :=
  ascLoopAux (toF + 1 - i).toNat i

/-- `for (let i = to; i >= from; i--) push(i)`: runs `to + 1 - from`
times. -/
def descLoop (i fromF : Int) : List Int :=
  descLoopAux (i + 1 - fromF).toNat i

/-- `for (let i = to - 1; i > from; i--) push(i)` (started at `i`): runs
while the counter stays strictly above `from`. -/
def descLoopGt (i fromF : Int) : List Int :=
  descLoopAux (i - fromF).toNat i

/-- `for (let i = from + 1; i < to; i++) push(i)` (started at `i`): runs
while the counter stays strictly below `to`. -/
def ascLoopLt (i toF : Int) : List Int :=
  ascLoopAux (toF - i).toNat i

/-- `types.ts` `TagDirection` values. -/
def TagDirection.Forward : Nat := 0

def TagDirection.Reverse : Nat := 1

def TagDirection.PingPong : Nat := 2

def TagDirection.PingPongReverse : Nat := 3

/-- `src/util/tags.ts` `TagFrameRange` (source field names `from`/`to`
are Lean keywords, rendered `fromFrame`/`toFrame`). -/
structure TagFrameRange where
  name : String
  fromFrame : Int
  toFrame : Int
  direction : Nat
  repeatCount : Nat
  frameCount : Int
  playbackOrder : List Int

/-- `resolveTagFrameRange` from `src/util/tags.ts`: build the playback
order with the direction-indexed loops (an unknown direction leaves the
order empty, as the source `switch` has no default case). -/
def resolveTagFrameRange (tag : Tag) : TagFrameRange :=
  let fromF : Int := tag.fromFrame
  let toF : Int := tag.toFrame
  let frameCount : Int := toF - fromF + 1
  let playbackOrder : List Int :=
    if tag.direction = TagDirection.Forward then
      ascLoop fromF toF
    else if tag.direction = TagDirection.Reverse then
      descLoop toF fromF
    else if tag.direction = TagDirection.PingPong then
      ascLoop fromF toF ++ descLoopGt (toF - 1) fromF
    else if tag.direction = TagDirection.PingPongReverse then
      descLoop toF fromF ++ ascLoopLt (fromF + 1) toF
    else []
  { name := tag.name
    fromFrame := fromF
    toFrame := toF
    direction := tag.direction
    repeatCount := tag.repeatCount
    frameCount := frameCount
    playbackOrder := playbackOrder }

/-- Modelled from the spec: the ascending run `a, a+1, …, b` (empty when
`b < a`). -/
def specAsc (a b : Int) : List Int :=
  (List.range (b + 1 - a).toNat).map (fun (k : Nat) => a + (k : Int))

/-- Modelled from the spec: the playback order per direction
(Forward `from…to`; Reverse `to…from`; PingPong `from…to` then
`to-1…from+1`; PingPongReverse `to…from` then `from+1…to-1`). -/
def specPlayback (direction : Nat) (a b : Int) : List Int :=
  if direction = TagDirection.Forward then specAsc a b
  else if direction = TagDirection.Reverse then (specAsc a b).reverse
  else if direction = TagDirection.PingPong then
    specAsc a b ++ (specAsc (a + 1) (b - 1)).reverse
  else if direction = TagDirection.PingPongReverse then
    (specAsc a b).reverse ++ specAsc (a + 1) (b - 1)
  else []

/-! ## Slice lookup (`src/util/tags.ts` `getSliceAtFrame`) -/

/-- `src/util/tags.ts` `ResolvedSliceKey`. -/
structure ResolvedSliceKey where
  name : String
  frameIndex : Nat
  x : Int
  y : Int
  width : Nat
  height : Nat
  center : Option SliceCenter
  pivot : Option SlicePivot
deriving DecidableEq

/-- The key-selection loop inside `getSliceAtFrame`: walk the keys,
remember the last key with `frameIndex ≤ query`, break at the first key
beyond the query frame. -/
def findApplicableKey (keys : List SliceKey) (frameIndex : Nat)
    (acc : Option SliceKey) : Option SliceKey :=
  match keys with
  | [] => acc
  | key :: rest =>
    if key.frameIndex ≤ frameIndex then
      findApplicableKey rest frameIndex (some key)
    else acc

/-- `getSliceAtFrame` from `src/util/tags.ts`. -/
def getSliceAtFrame (file : AsepriteFile) (sliceName : String)
    (frameIndex : Nat) : Option ResolvedSliceKey :=
  match file.slices with
  | none => none
  | some slices =>
    match slices.find? (fun s => s.name == sliceName) with
    | none => none
    | some slice =>
      if slice.keys.length = 0 then none
      else
        match findApplicableKey slice.keys frameIndex none with
        | none => none
        | some key =>
          some { name := sliceName
                 frameIndex := key.frameIndex
                 x := key.x
                 y := key.y
                 width := key.width
                 height := key.height
                 center := key.center
                 pivot := key.pivot }

/-! ## Linked-cel resolution (`src/util/decode.ts` `resolveLinkedCel`)

The source recurses without a cycle check; the embedding makes the
recursion depth explicit with fuel, returning `none` when the chain has
not resolved within the given number of hops. -/

/-- `true` exactly on `CelType.Linked` cels. -/
def Cel.isLinked (c : Cel) : Bool :=
  match c.variant with
  | .linked _ => true
  | _ => false

/-- `resolveLinkedCel` from `src/util/decode.ts`, with explicit fuel:
a non-Linked cel is returned as-is; a Linked cel follows
`linkedFrameIndex` to the cel with the same `layerIndex` and recurses,
failing with `INVALID_LINKED_CEL` when the frame index is out of range
or no matching cel exists. -/
def resolveLinkedCelF (fuel : Nat) (file : AsepriteFile) (cel : Cel) :
    Option (Except JsError Cel) :=
  match fuel with
  | 0 => none
  | fuel + 1 =>
    match cel.variant with
    | .linked linkedFrameIndex =>
      if file.frames.length ≤ linkedFrameIndex then
        some (.error (.aseFormatError
          ("Invalid linked frame index: " ++ toString linkedFrameIndex)
          INVALID_LINKED_CEL))
      else
        match (file.frames.getD linkedFrameIndex ⟨0, [], none⟩).cels.find?
            (fun c => c.layerIndex == cel.layerIndex) with
        | none =>
          some (.error (.aseFormatError
            ("Linked cel not found in frame " ++ toString linkedFrameIndex ++
              " for layer " ++ toString cel.layerIndex)
            INVALID_LINKED_CEL))
        | some linkedCel => resolveLinkedCelF fuel file linkedCel
    | _ => some (.ok cel)

/-- Termination of `resolveLinkedCel` on a given file and cel: some
finite number of hops suffices. -/
def ResolveTerminates (file : AsepriteFile) (cel : Cel) : Prop :=
  ∃ fuel, (resolveLinkedCelF fuel file cel).isSome

/-! ## Byte-level reader (`src/binary/reader.ts`)

The reader is a byte list plus a cursor; each primitive checks bounds
(throwing the `BinaryReader` out-of-bounds `Error`) and advances the
cursor by its width. -/

/-- `BinaryReader` state. -/
structure BinaryReader where
  data : List Nat
  offset : Nat
deriving DecidableEq

/-- `BinaryReader.ensureBytes`: plain `Error` when fewer than `count`
bytes remain. -/
def BinaryReader.ensureBytes (r : BinaryReader) (count : Nat) :
    Except JsError Unit :=
  if r.data.length < r.offset + count then
    .error (.plainError
      ("BinaryReader: Out of bounds at offset " ++ toString r.offset ++
        ", tried to read " ++ toString count ++ " bytes, but only " ++
        toString (r.data.length - r.offset) ++ " remain"))
  else .ok ()

/-- Byte at absolute offset `i`. -/
def BinaryReader.byteAt (r : BinaryReader) (i : Nat) : Nat :=
  r.data.getD i 0

/-- `BinaryReader.u8`. -/
def BinaryReader.u8 (r : BinaryReader) : Except JsError (Nat × BinaryReader) := do
  r.ensureBytes 1
  pure (r.byteAt r.offset, { r with offset := r.offset + 1 })

/-- `BinaryReader.u16` (little-endian). -/
def BinaryReader.u16 (r : BinaryReader) : Except JsError (Nat × BinaryReader) := do
  r.ensureBytes 2
  pure (r.byteAt r.offset + 256 * r.byteAt (r.offset + 1),
    { r with offset := r.offset + 2 })

/-- `BinaryReader.i16` (little-endian, two's complement). -/
def BinaryReader.i16 (r : BinaryReader) : Except JsError (Int × BinaryReader) := do
  let (v, r1) ← r.u16
  pure (if v < 32768 then (v : Int) else (v : Int) - 65536, r1)

/-- `BinaryReader.u32` (little-endian). -/
def BinaryReader.u32 (r : BinaryReader) : Except JsError (Nat × BinaryReader) := do
  r.ensureBytes 4
  pure (r.byteAt r.offset + 256 * r.byteAt (r.offset + 1) +
      65536 * r.byteAt (r.offset + 2) + 16777216 * r.byteAt (r.offset + 3),
    { r with offset := r.offset + 4 })

/-- `BinaryReader.skip`. -/
def BinaryReader.skip (r : BinaryReader) (count : Nat) :
    Except JsError BinaryReader := do
  r.ensureBytes count
  pure { r with offset := r.offset + count }

/-- `BinaryReader.bytes`: a view of `count` bytes from the cursor. -/
def BinaryReader.bytes (r : BinaryReader) (count : Nat) :
    Except JsError (List Nat × BinaryReader) := do
  r.ensureBytes count
  pure ((r.data.drop r.offset).take count, { r with offset := r.offset + count })

/-! ## Cel chunk parser (`src/chunks/cel.ts` `parseCelChunk`) -/

/-- `types.ts` `CelType` values. -/
def CelType.RawImage : Nat := 0

def CelType.Linked : Nat := 1

def CelType.CompressedImage : Nat := 2

def CelType.CompressedTilemap : Nat := 3

/-- `parseCelChunk` from `src/chunks/cel.ts`: read the common prefix,
then dispatch on the variant tag; an unknown tag throws the source's
plain `Error` (not an `AseFormatError`).  `remainingBytes` is
`chunkEndOffset - reader.offset` (clamped at zero, as `Nat`
subtraction). -/
def parseCelChunk (reader : BinaryReader) (chunkEndOffset : Nat) :
    Except JsError (Cel × BinaryReader) := do
  let (layerIndex, r) ← reader.u16
  let (x, r) ← r.i16
  let (y, r) ← r.i16
  let (opacity, r) ← r.u8
  let (celType, r) ← r.u16
  let (zIndex, r) ← r.i16
  let r ← r.skip 5
  if celType = CelType.RawImage then do
    let (width, r) ← r.u16
    let (height, r) ← r.u16
    let (bytes, r) ← r.bytes (chunkEndOffset - r.offset)
    pure ({ layerIndex := layerIndex, x := x, y := y, opacity := opacity,
            zIndex := zIndex, variant := .rawImage width height bytes,
            userData := none, extra := none }, r)
  else if celType = CelType.Linked then do
    let (linkedFrameIndex, r) ← r.u16
    pure ({ layerIndex := layerIndex, x := x, y := y, opacity := opacity,
            zIndex := zIndex, variant := .linked linkedFrameIndex,
            userData := none, extra := none }, r)
  else if celType = CelType.CompressedImage then do
    let (width, r) ← r.u16
    let (height, r) ← r.u16
    let (bytes, r) ← r.bytes (chunkEndOffset - r.offset)
    pure ({ layerIndex := layerIndex, x := x, y := y, opacity := opacity,
            zIndex := zIndex, variant := .compressedImage width height bytes,
            userData := none, extra := none }, r)
  else if celType = CelType.CompressedTilemap then do
    let (width, r) ← r.u16
    let (height, r) ← r.u16
    let (bitsPerTile, r) ← r.u16
    let (tileIdMask, r) ← r.u32
    let (xFlipMask, r) ← r.u32
    let (yFlipMask, r) ← r.u32
    let (rotationMask, r) ← r.u32
    let r ← r.skip 10
    let (bytes, r) ← r.bytes (chunkEndOffset - r.offset)
    pure ({ layerIndex := layerIndex, x := x, y := y, opacity := opacity,
            zIndex := zIndex,
            variant := .compressedTilemap width height bitsPerTile
              ⟨tileIdMask, xFlipMask, yFlipMask, rotationMask⟩ bytes,
            userData := none, extra := none }, r)
  else
    .error (.plainError ("Unknown cel type: " ++ toString celType))

/-! ## User-data property encoding (`src/chunks/encode.ts`)

The encoder is modelled as the trace of `BinaryWriter` calls it makes;
each trace item carries the argument passed to the writer method (the
writer's own byte wrapping is modelled separately by `u16Bytes` /
`u32Bytes`). -/

/-- One `BinaryWriter` call made by the chunk encoders. -/
inductive WriteOp where
  | wu8 (v : Int)
  | wu16 (v : Int)
  | wu32 (v : Int)
  | wi16 (v : Int)
  | wi32 (v : Int)
  | wu64 (v : Int)
  | wi64 (v : Int)
  | wfixed (v : JsNumber)
  | wf32 (v : JsNumber)
  | wf64 (v : JsNumber)
  | wstrBytes (s : String)
  | wuuidBytes (hex : String)
  | wbytes (bs : List Nat)
deriving DecidableEq

/-- `BinaryWriter.string`: u16 UTF-8 byte length then the bytes; throws
when the encoded length exceeds 65535. -/
def writeString (value : String) : Except JsError (List WriteOp) :=
  if value.utf8ByteSize > 0xffff then
    .error (.plainError
      ("BinaryWriter: String too long (" ++ toString value.utf8ByteSize ++
        " bytes, max 65535)"))
  else
    .ok [.wu16 (value.utf8ByteSize : Int), .wstrBytes value]

/-- `BinaryWriter.uuid`: strips dashes and writes 16 bytes; throws when
the remaining hex is not 32 characters. -/
def writeUuid (value : String) : Except JsError (List WriteOp) :=
  let hex := value.replace "-" ""
  if hex.length ≠ 32 then
    .error (.plainError ("BinaryWriter: Invalid UUID length: " ++ value))
  else
    .ok [.wuuidBytes hex]

/-- `types.ts` `PropertyType` codes. -/
def PropertyType.Null : Nat := 0x0000

def PropertyType.Bool : Nat := 0x0001

def PropertyType.Int8 : Nat := 0x0002

def PropertyType.Uint8 : Nat := 0x0003

def PropertyType.Int16 : Nat := 0x0004

def PropertyType.Uint16 : Nat := 0x0005

def PropertyType.Int32 : Nat := 0x0006

def PropertyType.Uint32 : Nat := 0x0007

def PropertyType.Int64 : Nat := 0x0008

def PropertyType.Uint64 : Nat := 0x0009

def PropertyType.Fixed : Nat := 0x000a

def PropertyType.Float : Nat := 0x000b

def PropertyType.Double : Nat := 0x000c

def PropertyType.String : Nat := 0x000d

def PropertyType.Point : Nat := 0x000e

def PropertyType.Size : Nat := 0x000f

def PropertyType.Rect : Nat := 0x0010

def PropertyType.Vector : Nat := 0x0011

def PropertyType.PropertiesMap : Nat := 0x0012

def PropertyType.UUID : Nat := 0x0013

/-- `getPropertyType` from `src/chunks/encode.ts`: recover a type tag
from a value by JavaScript runtime-type dispatch.  The unknown-type
placeholder `{unknownType}` is an object with neither `width`/`height`
nor `x`/`y`, so it falls through every structural test to the final
`return PropertyType.Null`. -/
def getPropertyType (value : PropertyValue) : Nat :=
  match value with
  | .vNull => PropertyType.Null
  | .vBool _ => PropertyType.Bool
  | .vBigInt i => if 0 ≤ i then PropertyType.Uint64 else PropertyType.Int64
  | .vNum (.intVal i) =>
    if 0 ≤ i then
      if i ≤ 255 then PropertyType.Uint8
      else if i ≤ 65535 then PropertyType.Uint16
      else PropertyType.Uint32
    else
      if -128 ≤ i then PropertyType.Int8
      else if -32768 ≤ i then PropertyType.Int16
      else PropertyType.Int32
  | .vNum (.doubleVal _) => PropertyType.Double
  | .vStr s =>
    if s.length = 36 ∧ s.contains (Char.ofNat 45) then PropertyType.UUID
    else PropertyType.String
  | .vVector _ => PropertyType.Vector
  | .vMap _ => PropertyType.PropertiesMap
  | .vRect _ _ _ _ => PropertyType.Rect
  | .vSize _ _ => PropertyType.Size
  | .vPoint _ _ => PropertyType.Point
  | .vUnknown _ => PropertyType.Null

/-- The `value as number` cast (meaningful only when the value is an
integer number; the unreachable mismatch cases are 0). -/
def propIntNum (value : PropertyValue) : Int :=
  match value with
  | .vNum (.intVal i) => i
  | _ => 0

/-- The `value as number` cast kept as a `JsNumber` (for the
float-valued writer calls). -/
def propJsNum (value : PropertyValue) : JsNumber :=
  match value with
  | .vNum n => n
  | _ => .intVal 0

/-- The `value as bigint` cast. -/
def propBigInt (value : PropertyValue) : Int :=
  match value with
  | .vBigInt i => i
  | _ => 0

/-- The `value as string` cast. -/
def propStr (value : PropertyValue) : String :=
  match value with
  | .vStr s => s
  | _ => ""

/-- The `value as {x, y}` cast (a Rect also has `x`/`y`). -/
def propPoint (value : PropertyValue) : Int × Int :=
  match value with
  | .vPoint x y => (x, y)
  | .vRect x y _ _ => (x, y)
  | _ => (0, 0)

/-- The `value as {width, height}` cast (a Rect also has both). -/
def propSize (value : PropertyValue) : Int × Int :=
  match value with
  | .vSize w h => (w, h)
  | .vRect _ _ w h => (w, h)
  | _ => (0, 0)

/-- JavaScript truthiness of a property value (`value ? 1 : 0`): `null`,
`false`, `0`, `""` and `NaN` are falsy, every object is truthy.  A NaN
double has an all-ones exponent and nonzero mantissa. -/
def jsTruthy (value : PropertyValue) : Bool :=
  match value with
  | .vNull => false
  | .vBool b => b
  | .vNum (.intVal i) => i != 0
  | .vNum (.doubleVal bits) =>
    !(decide (bits / 2 ^ 52 % 2 ^ 11 = 0x7ff ∧ bits % 2 ^ 52 ≠ 0))
  | .vBigInt i => i != 0
  | .vStr s => s != ""
  | _ => true

mutual

/-- `encodePropertyValue` from `src/chunks/encode.ts`: write a value
under an already chosen type tag.  The `switch` has no default case, so
an unmatched tag writes nothing.  The non-array/non-map fallbacks of the
Vector and PropertiesMap cases reflect JavaScript's `undefined → 0`
length coercion (reachable only through heterogeneous vectors). -/
def encodePropertyValue (value : PropertyValue) (propType : Nat) :
    Except JsError (List WriteOp) :=
  if propType = PropertyType.Null then .ok []
  else if propType = PropertyType.Bool then
    .ok [.wu8 (if jsTruthy value then 1 else 0)]
  else if propType = PropertyType.Int8 then
    .ok [.wu8 (propIntNum value + 128)]
  else if propType = PropertyType.Uint8 then .ok [.wu8 (propIntNum value)]
  else if propType = PropertyType.Int16 then .ok [.wi16 (propIntNum value)]
  else if propType = PropertyType.Uint16 then .ok [.wu16 (propIntNum value)]
  else if propType = PropertyType.Int32 then .ok [.wi32 (propIntNum value)]
  else if propType = PropertyType.Uint32 then .ok [.wu32 (propIntNum value)]
  else if propType = PropertyType.Int64 then .ok [.wi64 (propBigInt value)]
  else if propType = PropertyType.Uint64 then .ok [.wu64 (propBigInt value)]
  else if propType = PropertyType.Fixed then .ok [.wfixed (propJsNum value)]
  else if propType = PropertyType.Float then .ok [.wf32 (propJsNum value)]
  else if propType = PropertyType.Double then .ok [.wf64 (propJsNum value)]
  else if propType = PropertyType.String then writeString (propStr value)
  else if propType = PropertyType.Point then
    .ok [.wi32 (propPoint value).1, .wi32 (propPoint value).2]
  else if propType = PropertyType.Size then
    .ok [.wi32 (propSize value).1, .wi32 (propSize value).2]
  else if propType = PropertyType.Rect then
    .ok [.wi32 (propPoint value).1, .wi32 (propPoint value).2,
         .wi32 (propSize value).1, .wi32 (propSize value).2]
  else if propType = PropertyType.Vector then
    match value with
    | .vVector elems =>
      match elems with
      | [] => .ok [.wu32 0, .wu16 (PropertyType.Null : Int)]
      | first :: _ => do
        let elementType := getPropertyType first
        let body ← encodePropertyList elems elementType
        .ok ([.wu32 (elems.length : Int), .wu16 (elementType : Int)] ++ body)
    | _ => .ok [.wu32 0, .wu16 (PropertyType.Null : Int)]
  else if propType = PropertyType.PropertiesMap then
    match value with
    | .vMap entries => do
      let body ← encodeMapEntries entries
      .ok ([.wu32 (entries.length : Int)] ++ body)
    | _ => .ok [.wu32 0]
  else if propType = PropertyType.UUID then writeUuid (propStr value)
  else .ok []

/-- The `for (const elem of arr)` loop of the Vector case. -/
def encodePropertyList (elems : List PropertyValue) (elementType : Nat) :
    Except JsError (List WriteOp) :=
  match elems with
  | [] => .ok []
  | e :: es => do
    let head ← encodePropertyValue e elementType
    let tail ← encodePropertyList es elementType
    .ok (head ++ tail)

/-- The `for (const [key, val] of map)` loop of the PropertiesMap case:
each entry re-derives its own type tag. -/
def encodeMapEntries (entries : List (String × PropertyValue)) :
    Except JsError (List WriteOp) :=
  match entries with
  | [] => .ok []
  | (key, val) :: rest => do
    let keyOps ← writeString key
    let valType := getPropertyType val
    let valOps ← encodePropertyValue val valType
    let restOps ← encodeMapEntries rest
    .ok (keyOps ++ [.wu16 (valType : Int)] ++ valOps ++ restOps)

end

/-- Match `pat` against the start of `s`, returning the remainder. -/
def stripPat (pat s : List Char) : Option (List Char) :=
  match pat, s with
  | [], rest => some rest
  | _, [] => none
  | p :: ps, c :: cs => if c = p then stripPat ps cs else none

/-- `String.replace(pat, "")` for the first occurrence only, over
character lists (JavaScript `replace` with a string pattern replaces a
single occurrence). -/
def replaceFirstAux (pat s : List Char) : List Char :=
  match s with
  | [] => []
  | c :: cs =>
    match stripPat pat (c :: cs) with
    | some rest => rest
    | none => c :: replaceFirstAux pat cs

/-- `true` on ASCII decimal digits. -/
def isDigitChar (c : Char) : Bool :=
  48 ≤ c.toNat && c.toNat ≤ 57

/-- Accumulate the leading digit run. -/
def parseIntLeading (cs : List Char) (acc : Nat) : Nat :=
  match cs with
  | [] => acc
  | c :: rest =>
    if isDigitChar c then parseIntLeading rest (acc * 10 + (c.toNat - 48))
    else acc

/-- `parseInt(s, 10) || 0`: parse the leading digit run, 0 when there is
none (NaN is falsy).  Leading whitespace and sign handling are not
needed for `ext_`-shaped keys. -/
def parseIntOr0 (cs : List Char) : Nat :=
  match cs with
  | [] => 0
  | c :: rest => if isDigitChar c then parseIntLeading (c :: rest) 0 else 0

/-- The extension-id recovery `parseInt(extKey.replace("ext_", ""), 10)
|| 0`. -/
def parseExtId (extKey : String) : Nat :=
  parseIntOr0 (replaceFirstAux "ext_".data extKey.data)

/-- `encodePropertiesMap` from `src/chunks/encode.ts`. -/
def encodePropertiesMap (properties : PropertiesMap) :
    Except JsError (List WriteOp) := do
  let blocks ← encodeExtBlocks properties
  .ok ([.wu32 (properties.length : Int)] ++ blocks)
where
  encodeExtBlocks : List (String × List (String × PropertyValue)) →
      Except JsError (List WriteOp)
  | [] => .ok []
  | (extKey, props) :: rest => do
    let body ← encodeMapEntries props
    let restOps ← encodeExtBlocks rest
    .ok ([.wu32 (parseExtId extKey : Int), .wu32 (props.length : Int)] ++
      body ++ restOps)

/-- JavaScript truthiness of `userData.text` (absent and `""` are
falsy). -/
def textTruthy (text : Option String) : Bool :=
  match text with
  | none => false
  | some s => s != ""

/-- `types.ts` `UserDataFlags`. -/
def UserDataFlags.HasText : Nat := 1

def UserDataFlags.HasColor : Nat := 2

def UserDataFlags.HasProperties : Nat := 4

/-- `encodeUserDataChunk` from `src/chunks/encode.ts`. -/
def encodeUserDataChunk (userData : UserData) :
    Except JsError (List WriteOp) := do
  let flags :=
    (if textTruthy userData.text then UserDataFlags.HasText else 0) |||
    (if userData.color.isSome then UserDataFlags.HasColor else 0) |||
    (if userData.properties.isSome then UserDataFlags.HasProperties else 0)
  let textOps ← match userData.text with
    | some t => if t != "" then writeString t else .ok []
    | none => .ok []
  let colorOps :=
    match userData.color with
    | some c => [WriteOp.wu8 (c.r : Int), .wu8 (c.g : Int),
                 .wu8 (c.b : Int), .wu8 (c.a : Int)]
    | none => []
  let propOps ← match userData.properties with
    | some p => encodePropertiesMap p
    | none => .ok []
  .ok ([.wu32 (flags : Int)] ++ textOps ++ colorOps ++ propOps)

/-! ## Parse state machine (`parse.ts` `ParseContext` / `parseChunk` /
`parseAseprite`)

`parseChunk` mutates a shared `ParseContext` and attaches user data to
objects previously pushed into the result accumulators; here the
accumulators live in an explicit state and the mutable object references
become indices into them (objects are only ever appended, so the index
of the most recently pushed object identifies it).  The embedding works
at the level of already parsed chunk payloads: the byte-level framing
(frame headers, chunk sizes, the per-chunk decoders) determines which
chunk sequence arrives, and the machine is quantified over every such
sequence. -/

/-- `ParseContext.lastAttachTarget`: the last object that can receive
user data, by accumulator index.  A cel is identified by its frame and
its position in that frame (the target can outlive its frame). -/
inductive AttachTarget where
  | layerT (idx : Nat)
  | celT (frameIdx idx : Nat)
  | sliceT (idx : Nat)
  | tilesetT (idx : Nat)
  | spriteT
deriving DecidableEq

/-- The tag cursor (`pendingTagUserData` array plus
`pendingTagUserDataIndex`): the tags of the most recent Tags chunk are
`tags[base] … tags[base + count - 1]` of the global accumulator. -/
structure PendingTags where
  base : Nat
  count : Nat
  i : Nat
deriving DecidableEq

/-- Phase of the tileset user-data cursor. -/
inductive TilesetPhase where
  | tilesetPhase
  | tilesPhase
deriving DecidableEq

/-- `ParseContext.pendingTilesetUserData`. -/
structure PendingTileset where
  tsIdx : Nat
  phase : TilesetPhase
  tileIndex : Nat
deriving DecidableEq

/-- `parse.ts` `ParseContext`. -/
structure ParseContext where
  lastAttachTarget : Option AttachTarget
  pendingTagUserData : Option PendingTags
  pendingTilesetUserData : Option PendingTileset
  frameIndex : Nat
  lastCel : Option (Nat × Nat)
deriving DecidableEq

/-- `types.ts` `ParseOptions` with the source's defaults resolved. -/
structure ParseOptions where
  preserveChunks : Bool
  preserveCompressed : Bool
  decodeImages : Nat
  strict : Bool
deriving DecidableEq

/-- Accumulated parsing state of `parseAseprite`. -/
structure ParseState where
  ctx : ParseContext
  frames : List Frame
  curCels : List Cel
  curChunks : List Chunk
  layers : List Layer
  tags : List Tag
  slices : List Slice
  tilesets : List Tileset
  palette : Option Palette
  oldPaletteChunks : List (Nat × List OldPalettePacket)
  colorProfile : Option ColorProfile
  externalFiles : Option (List ExternalFile)
  spriteUserData : Option UserData
  unknownChunks : List UnknownChunk

/-- In-place update at an index (the functional image of mutating an
object held in an accumulator array). -/
def modifyAt (l : List α) (n : Nat) (f : α → α) : List α :=
  match l, n with
  | [], _ => []
  | x :: xs, 0 => f x :: xs
  | x :: xs, n + 1 => x :: modifyAt xs n f

/-- Sparse JavaScript array write `a[n] = v` (extends with holes). -/
def setSparse (l : List (Option α)) (n : Nat) (v : α) : List (Option α) :=
  match l, n with
  | [], 0 => [some v]
  | [], n + 1 => none :: setSparse [] n v
  | _ :: xs, 0 => some v :: xs
  | x :: xs, n + 1 => x :: setSparse xs n v

/-- Set the user data of the cel at position `i` of frame `f` (either in
the frame under construction or in an already completed frame). -/
def attachUserDataToCel (s : ParseState) (f i : Nat) (u : UserData) :
    ParseState :=
  if f = s.ctx.frameIndex then
    { s with curCels :=
        modifyAt s.curCels i (fun c => { c with userData := some u }) }
  else
    { s with frames := modifyAt s.frames f (fun fr =>
        { fr with cels :=
            modifyAt fr.cels i (fun c => { c with userData := some u }) }) }

/-- Set the `extra` of the cel at position `i` of frame `f` (CelExtra
attachment to `lastCel`). -/
def attachExtraToCel (s : ParseState) (f i : Nat) (e : CelExtra) :
    ParseState :=
  if f = s.ctx.frameIndex then
    { s with curCels :=
        modifyAt s.curCels i (fun c => { c with extra := some e }) }
  else
    { s with frames := modifyAt s.frames f (fun fr =>
        { fr with cels :=
            modifyAt fr.cels i (fun c => { c with extra := some e }) }) }

/-- The non-tag arms of the user-data attachment cascade in
`parseChunk`: tileset cursor, then `lastAttachTarget` (the `sprite`
arm's body is the source's empty "handled at file level" case), else
discard. -/
def applyUserDataNonTag (s : ParseState) (u : UserData) : ParseState :=
  match s.ctx.pendingTilesetUserData with
  | some pt =>
    match pt.phase with
    | .tilesetPhase =>
      let pt1 : PendingTileset := { pt with phase := .tilesPhase, tileIndex := 0 }
      { s with
        tilesets := modifyAt s.tilesets pt.tsIdx
          (fun ts => { ts with userData := some u })
        ctx := { s.ctx with pendingTilesetUserData := some pt1 } }
    | .tilesPhase =>
      let pt1 : PendingTileset := { pt with tileIndex := pt.tileIndex + 1 }
      { s with
        tilesets := modifyAt s.tilesets pt.tsIdx
          (fun ts =>
            { ts with tileUserData := setSparse ts.tileUserData pt.tileIndex u })
        ctx := { s.ctx with pendingTilesetUserData := some pt1 } }
  | none =>
    match s.ctx.lastAttachTarget with
    | some (.layerT i) =>
      { s with layers :=
          modifyAt s.layers i (fun l => { l with userData := some u }) }
    | some (.celT f i) => attachUserDataToCel s f i u
    | some (.sliceT i) =>
      { s with slices :=
          modifyAt s.slices i (fun sl => { sl with userData := some u }) }
    | some (.tilesetT i) =>
      { s with tilesets :=
          modifyAt s.tilesets i (fun ts => { ts with userData := some u }) }
    | some .spriteT => s
    | none => s

/-- The full user-data attachment cascade of `parseChunk`'s UserData
case: an unexhausted tag cursor wins, else fall through. -/
def applyUserDataAttach (s : ParseState) (u : UserData) : ParseState :=
  match s.ctx.pendingTagUserData with
  | some p =>
    if p.i < p.count then
      { s with
        tags := modifyAt s.tags (p.base + p.i)
          (fun t => { t with userData := some u })
        ctx := { s.ctx with pendingTagUserData := some { p with i := p.i + 1 } } }
    else applyUserDataNonTag s u
  | none => applyUserDataNonTag s u

/-- The `ChunkType` codes handled by `parseChunk` or declared in
`types.ts` (`Object.values(ChunkType)`), including the deprecated Mask
and never-used Path codes that the collection test recognizes even
though the parser treats them as unknown. -/
def knownChunkTypes : List Nat :=
  [0x0004, 0x0011, 0x2004, 0x2005, 0x2006, 0x2007, 0x2008, 0x2016, 0x2017,
   0x2018, 0x2019, 0x2020, 0x2022, 0x2023]

/-- One iteration of the chunk loop in `parseAseprite`: `parseChunk`'s
context transitions and attachments, then the collection `switch`
(including the sprite-level user-data check), then the `preserveChunks`
push. -/
def applyChunk (options : ParseOptions) (s : ParseState) (ch : Chunk) :
    ParseState :=
  let s1 :=
    match ch with
    | .layerChunk layer =>
      { s with
        layers := s.layers ++ [layer]
        ctx := { s.ctx with
          lastAttachTarget := some (.layerT s.layers.length)
          pendingTagUserData := none
          pendingTilesetUserData := none } }
    | .celChunk cel =>
      { s with
        curCels := s.curCels ++ [cel]
        ctx := { s.ctx with
          lastAttachTarget := some (.celT s.ctx.frameIndex s.curCels.length)
          lastCel := some (s.ctx.frameIndex, s.curCels.length)
          pendingTagUserData := none
          pendingTilesetUserData := none } }
    | .celExtraChunk extra =>
      match s.ctx.lastCel with
      | some (f, i) => attachExtraToCel s f i extra
      | none => s
    | .paletteChunk p =>
      { s with
        palette := some p
        ctx := { s.ctx with
          lastAttachTarget := none
          pendingTagUserData := none
          pendingTilesetUserData := none } }
    | .oldPaletteChunk ty packets =>
      { s with
        oldPaletteChunks := s.oldPaletteChunks ++ [(ty, packets)]
        ctx := { s.ctx with
          lastAttachTarget := none
          pendingTagUserData := none
          pendingTilesetUserData := none } }
    | .tagsChunk newTags =>
      { s with
        tags := s.tags ++ newTags
        ctx := { s.ctx with
          pendingTagUserData :=
            some { base := s.tags.length, count := newTags.length, i := 0 }
          lastAttachTarget := none
          pendingTilesetUserData := none } }
    | .userDataChunk u =>
      let s2 := applyUserDataAttach s u
      if s2.ctx.frameIndex = 0 ∧ s2.ctx.lastAttachTarget = some .spriteT then
        { s2 with spriteUserData := some u }
      else s2
    | .sliceChunk slice =>
      { s with
        slices := s.slices ++ [slice]
        ctx := { s.ctx with
          lastAttachTarget := some (.sliceT s.slices.length)
          pendingTagUserData := none
          pendingTilesetUserData := none } }
    | .tilesetChunk ts =>
      { s with
        tilesets := s.tilesets ++ [ts]
        ctx := { s.ctx with
          lastAttachTarget := some (.tilesetT s.tilesets.length)
          pendingTagUserData := none
          pendingTilesetUserData :=
            some { tsIdx := s.tilesets.length, phase := .tilesetPhase,
                   tileIndex := 0 } } }
    | .colorProfileChunk p =>
      { s with
        colorProfile := some p
        ctx := { s.ctx with
          lastAttachTarget := none
          pendingTagUserData := none
          pendingTilesetUserData := none } }
    | .externalFilesChunk fs =>
      { s with
        externalFiles := some fs
        ctx := { s.ctx with
          lastAttachTarget := none
          pendingTagUserData := none
          pendingTilesetUserData := none } }
    | .unknownChunk ty raw =>
      if ty ∈ knownChunkTypes then s
      else { s with unknownChunks := s.unknownChunks ++ [⟨ty, raw⟩] }
  if options.preserveChunks then
    { s1 with curChunks := s1.curChunks ++ [ch] }
  else s1

/-- A frame of the event stream: its raw header duration and the chunk
payload sequence the chunk loop produces for it. -/
structure FrameEv where
  durationMs : Nat
  chunks : List Chunk

/-- One iteration of the frame loop: reset `lastCel` and the per-frame
accumulators, run the chunk loop, then push the completed `Frame`
(substituting the deprecated header speed for a zero duration). -/
def runFrame (options : ParseOptions) (header : AseHeader) (s : ParseState)
    (fev : FrameEv) : ParseState :=
  let s0 := { s with
    ctx := { s.ctx with lastCel := none }
    curCels := []
    curChunks := [] }
  let durationMs := if fev.durationMs = 0 then header.speed else fev.durationMs
  let s1 := fev.chunks.foldl (applyChunk options) s0
  let frame : Frame :=
    { durationMs := durationMs
      cels := s1.curCels
      chunks := if options.preserveChunks then some s1.curChunks else none }
  { s1 with frames := s1.frames ++ [frame] }

/-- The frame loop, threading `ctx.frameIndex`. -/
def runFrames (options : ParseOptions) (header : AseHeader) (idx : Nat)
    (s : ParseState) (fevs : List FrameEv) : ParseState :=
  match fevs with
  | [] => s
  | fev :: rest =>
    runFrames options header (idx + 1)
      (runFrame options header { s with ctx := { s.ctx with frameIndex := idx } } fev)
      rest

/-- `convertOldPalette` from `parse.ts`: replay the old-palette packets
into a sparse entry array (skip counts advance the write index, colors
get alpha 255). -/
def convertOldPalette (oldChunks : List (Nat × List OldPalettePacket)) :
    Option Palette :=
  if oldChunks.length = 0 then none
  else
    let step := fun (st : List (Option PaletteEntry) × Nat)
        (packet : OldPalettePacket) =>
      packet.colors.foldl
        (fun (st : List (Option PaletteEntry) × Nat) c =>
          (setSparse st.1 st.2 ⟨c.1, c.2.1, c.2.2, 255, none⟩, st.2 + 1))
        (st.1, st.2 + packet.skipCount)
    let entries :=
      (oldChunks.foldl (fun st chunk => chunk.2.foldl step st) ([], 0)).1
    some { size := entries.length, firstIndex := 0,
           lastIndex := (entries.length : Int) - 1, entries := entries }

/-- The initial `ParseContext`/accumulator state of `parseAseprite`. -/
def initState : ParseState :=
  { ctx := { lastAttachTarget := none, pendingTagUserData := none,
             pendingTilesetUserData := none, frameIndex := 0, lastCel := none }
    frames := [], curCels := [], curChunks := [], layers := [], tags := []
    slices := [], tilesets := [], palette := none, oldPaletteChunks := []
    colorProfile := none, externalFiles := none, spriteUserData := none
    unknownChunks := [] }

/-- `parseAseprite` from `parse.ts` over the chunk-event stream: run the
frame loop from the initial state and assemble the `AsepriteFile`
(optional collections only when non-empty, old-palette synthesis only
when no modern palette was seen, sprite user data only when set). -/
def parseAsepriteEvents (header : AseHeader) (frameEvs : List FrameEv)
    (options : ParseOptions) : AsepriteFile :=
  let s := runFrames options header 0 initState frameEvs
  let palette :=
    match s.palette with
    | some p => some p
    | none =>
      if s.oldPaletteChunks.length > 0 then convertOldPalette s.oldPaletteChunks
      else none
  { header := header
    frames := s.frames
    layers := s.layers
    tags := if s.tags.length > 0 then some s.tags else none
    slices := if s.slices.length > 0 then some s.slices else none
    palette := palette
    tilesets := if s.tilesets.length > 0 then some s.tilesets else none
    colorProfile := s.colorProfile
    externalFiles := s.externalFiles
    userData := s.spriteUserData
    unknownChunks :=
      if s.unknownChunks.length > 0 then some s.unknownChunks else none }

/-! ## Spec-side lookup and concrete sample data -/

/-- Modelled from the spec: "return the key with the greatest
`frame-index ≤ query-frame`, or none if no key qualifies" — on keys
sorted ascending this is the last key passing the filter. -/
def specSliceLookup (keys : List SliceKey) (f : Nat) : Option SliceKey :=
  (keys.filter (fun k => decide (k.frameIndex ≤ f))).getLast?

/-- Build the `ResolvedSliceKey` from a chosen key, as `getSliceAtFrame`
does. -/
def resolveKey (sliceName : String) (key : SliceKey) : ResolvedSliceKey :=
  { name := sliceName
    frameIndex := key.frameIndex
    x := key.x
    y := key.y
    width := key.width
    height := key.height
    center := key.center
    pivot := key.pivot }

/-- A minimal header for concrete test files (16×16, RGBA, speed 100). -/
def emptyHeader : AseHeader :=
  { fileSize := 0, magic := 0xa5e0, frameCount := 1, width := 16, height := 16
    colorDepth := 32, flags := 0, speed := 100, transparentIndex := 0
    colorCount := 0, pixelWidth := 1, pixelHeight := 1, gridX := 0, gridY := 0
    gridWidth := 16, gridHeight := 16 }

/-- The source's default parse options (`preserveChunks` and
`preserveCompressed` true, images not decoded, strict). -/
def defaultOptions : ParseOptions :=
  { preserveChunks := true, preserveCompressed := true, decodeImages := 0
    strict := true }

/-- A cel in frame 0, layer 0, whose link points back at frame 0: the
cel with its own layer index in the linked frame is the cel itself. -/
def cyclicCel : Cel :=
  { layerIndex := 0, x := 0, y := 0, opacity := 255, zIndex := 0
    variant := .linked 0, userData := none, extra := none }

/-- A decodable file containing only the self-linked cel. -/
def cyclicFile : AsepriteFile :=
  { header := emptyHeader, frames := [⟨100, [cyclicCel], none⟩], layers := []
    tags := none, slices := none, palette := none, tilesets := none
    colorProfile := none, externalFiles := none, userData := none
    unknownChunks := none }

/-- A raw-image cel on layer 0 (link target). -/
def baseCel : Cel :=
  { layerIndex := 0, x := 0, y := 0, opacity := 255, zIndex := 0
    variant := .rawImage 1 1 [255, 0, 0, 255], userData := none, extra := none }

/-- A frame-1 cel linked to frame 0, layer 0. -/
def linkedCel : Cel :=
  { layerIndex := 0, x := 0, y := 0, opacity := 255, zIndex := 0
    variant := .linked 0, userData := none, extra := none }

/-- Two frames: the raw cel followed by the cel linked back to it. -/
def linkFile : AsepriteFile :=
  { header := emptyHeader
    frames := [⟨100, [baseCel], none⟩, ⟨100, [linkedCel], none⟩]
    layers := [], tags := none, slices := none, palette := none
    tilesets := none, colorProfile := none, externalFiles := none
    userData := none, unknownChunks := none }

/-- User data whose properties hold only a decode placeholder for an
unknown property type tag (placeholders never carry raw bytes). -/
def placeholderUserData : UserData :=
  { text := none, color := none
    properties := some [("ext_1", [("foo", .vUnknown 0x9999)])] }

/-- A sample user-data payload. -/
def udSample : UserData :=
  { text := some "hello", color := none, properties := none }

/-- A single frame whose only chunk is a UserData chunk: frame index 0,
no tag cursor, no tileset cursor, no attach target precede it. -/
def c1Frames : List FrameEv :=
  [⟨100, [.userDataChunk udSample]⟩]

/-- The 16-byte body of a cel chunk whose variant tag is 4 (unknown):
layer 0, position (0,0), opacity 255, z-index 0, five reserved bytes. -/
def badCelBytes : List Nat :=
  [0, 0, 0, 0, 0, 0, 255, 4, 0, 0, 0, 0, 0, 0, 0, 0]

/-- A ping-pong tag over frames 0–2 (spec scenario 3). -/
def walkTag : Tag :=
  { fromFrame := 0, toFrame := 2, direction := 2, repeatCount := 0
    color := (0, 0, 0), name := "walk", userData := none }

/-- Slice key at frame 0 (spec scenario: `x=10, w=20`). -/
def sliceKey0 : SliceKey :=
  { frameIndex := 0, x := 10, y := 0, width := 20, height := 20
    center := none, pivot := none }

/-- Slice key at frame 2 (spec scenario: `x=15, w=25`). -/
def sliceKey2 : SliceKey :=
  { frameIndex := 2, x := 15, y := 0, width := 25, height := 25
    center := none, pivot := none }

/-- A slice named "hit" with keys at frames 0 and 2. -/
def hitSlice : Slice :=
  { name := "hit", flags := 0, keys := [sliceKey0, sliceKey2], userData := none }

/-- A file carrying only the "hit" slice. -/
def sliceFile : AsepriteFile :=
  { header := emptyHeader, frames := [], layers := [], tags := none
    slices := some [hitSlice], palette := none, tilesets := none
    colorProfile := none, externalFiles := none, userData := none
    unknownChunks := none }

/-! # Theorems -/

/-- C7: during decode the chunk count used for the chunk loop equals the
new count exactly when the new count is nonzero and the old count is
0xFFFF, and equals the old count in every other case. -/
theorem C7_chunk_count_selection (oldChunkCount newChunkCount : Nat) :
    determineChunkCount oldChunkCount newChunkCount =
      specChunkCount oldChunkCount newChunkCount := by
  by_cases h1 : newChunkCount = 0 <;> by_cases h2 : oldChunkCount = 0xffff <;>
    simp [determineChunkCount, specChunkCount, h1, h2]

/-- C2 counterexample: a frame with one chunk has chunk count `1 ≤
0xFFFE`, yet the encoder writes `1`, not `0`, into the new-chunk-count
field (bytes 12–15 of the frame header). -/
theorem C2_counterexample :
    1 ≤ 0xfffe ∧ readU32At (encodeFrameHeader 16 1 100) 12 ≠ 0 := by decide

/-- C2 amended: the old-chunk-count field receives the count when it is
at most 0xFFFE and 0xFFFF otherwise, while the new-chunk-count field
always receives the real count (mod 2^32), in every frame header the
encoder emits. -/
theorem C2_frame_header_chunk_counts (frameSize chunkCount durationMs : Nat) :
    readU16At (encodeFrameHeader frameSize chunkCount durationMs) 6 =
      (if chunkCount > 0xfffe then 0xffff else chunkCount) ∧
    readU32At (encodeFrameHeader frameSize chunkCount durationMs) 12 =
      chunkCount % 4294967296 := by
  simp only [encodeFrameHeader, u16Bytes, u32Bytes, readU16At, readU32At,
    List.cons_append, List.nil_append, List.getD_cons_zero,
    List.getD_cons_succ]
  constructor
  · by_cases h : chunkCount > 0xfffe <;> simp only [h, if_true, if_false] <;>
      omega
  · omega

/-- Distributing a shared conjunct over a four-way disjunction of bit
masks. -/
theorem land_lor_distrib4 (v a b c d : Nat) :
    (v &&& a) ||| (v &&& b) ||| (v &&& c) ||| (v &&& d) =
      v &&& (a ||| b ||| c ||| d) := by
  refine Nat.eq_of_testBit_eq fun i => ?_
  simp [Nat.testBit_lor, Nat.testBit_land, Bool.and_or_distrib_left]

/-- C4 counterexample: with masks `(0, 3, 0, 0)` the value 1 has all its
set bits inside the union of the four masks, yet decode-then-encode
returns 3: the x-flip flag re-expands to the whole two-bit mask. -/
theorem C4_counterexample :
    (1 : Nat) < 2 ^ 32 ∧
    1 &&& ((0 : Nat) ||| 3 ||| 0 ||| 0) = 1 ∧
    encodeTileValue (decodeTileValue 1 ⟨0, 3, 0, 0⟩) ⟨0, 3, 0, 0⟩ ≠ 1 := by
  decide

/-- C4 amended: decode-then-encode is the identity on a 32-bit tile
value whose set bits lie within the union of the four masks, provided
additionally that the value meets each of the three flag masks either
not at all or in full (as is the case for the single-bit flag masks real
files use). -/
theorem C4_tile_roundtrip (v : Nat) (m : TilemapMasks)
    (hv : v < 2 ^ 32)
    (hunion : v &&& (m.tileIdMask ||| m.xFlipMask ||| m.yFlipMask |||
      m.rotationMask) = v)
    (hx : v &&& m.xFlipMask ≠ 0 → v &&& m.xFlipMask = m.xFlipMask)
    (hy : v &&& m.yFlipMask ≠ 0 → v &&& m.yFlipMask = m.yFlipMask)
    (hr : v &&& m.rotationMask ≠ 0 → v &&& m.rotationMask = m.rotationMask) :
    encodeTileValue (decodeTileValue v m) m = v := by
  have hXor : ∀ w : Nat,
      (if (v &&& m.xFlipMask != 0) = true then w ||| m.xFlipMask else w) =
        w ||| (v &&& m.xFlipMask) := by
    intro w
    by_cases h : v &&& m.xFlipMask = 0
    · simp [h]
    · rw [hx h]
      by_cases h0 : m.xFlipMask = 0 <;> simp [h0]
  have hYor : ∀ w : Nat,
      (if (v &&& m.yFlipMask != 0) = true then w ||| m.yFlipMask else w) =
        w ||| (v &&& m.yFlipMask) := by
    intro w
    by_cases h : v &&& m.yFlipMask = 0
    · simp [h]
    · rw [hy h]
      by_cases h0 : m.yFlipMask = 0 <;> simp [h0]
  have hRor : ∀ w : Nat,
      (if (v &&& m.rotationMask != 0) = true then w ||| m.rotationMask else w) =
        w ||| (v &&& m.rotationMask) := by
    intro w
    by_cases h : v &&& m.rotationMask = 0
    · simp [h]
    · rw [hr h]
      by_cases h0 : m.rotationMask = 0 <;> simp [h0]
  have hTT : v &&& m.tileIdMask &&& m.tileIdMask = v &&& m.tileIdMask := by
    rw [Nat.land_assoc]
    congr 1
    exact Nat.eq_of_testBit_eq fun i => by simp [Nat.testBit_land]
  show encodeTileValue (decodeTileValue v m) m = v
  unfold encodeTileValue decodeTileValue
  simp only []
  rw [hXor, hYor, hRor, hTT, land_lor_distrib4, hunion]

/-- C4 witness: the canonical masks and the value `123 | 0x20000000`
satisfy the hypotheses and round-trip. -/
theorem C4_tile_roundtrip_witness :
    ((123 ||| 0x20000000 : Nat) < 2 ^ 32 ∧
      (123 ||| 0x20000000 : Nat) &&&
        ((0x1fffffff : Nat) ||| 0x20000000 ||| 0x40000000 ||| 0x80000000) =
        123 ||| 0x20000000) ∧
    encodeTileValue
      (decodeTileValue (123 ||| 0x20000000)
        ⟨0x1fffffff, 0x20000000, 0x40000000, 0x80000000⟩)
      ⟨0x1fffffff, 0x20000000, 0x40000000, 0x80000000⟩ =
      123 ||| 0x20000000 :=
  ⟨⟨by decide, by decide⟩,
    C4_tile_roundtrip (123 ||| 0x20000000)
      ⟨0x1fffffff, 0x20000000, 0x40000000, 0x80000000⟩
      (by decide) (by decide) (by decide) (by decide) (by decide)⟩

/-- The ascending loop lists `i, i+1, …` for its iteration count. -/
theorem ascLoopAux_eq (n : Nat) : ∀ i : Int,
    ascLoopAux n i = (List.range n).map (fun (k : Nat) => i + (k : Int)) := by
  induction n with
  | zero => intro i; rfl
  | succ n ih =>
    intro i
    simp only [ascLoopAux, ih, List.range_succ_eq_map, List.map_cons,
      List.map_map, Nat.cast_zero, add_zero]
    congr 1
    refine List.map_congr_left fun k _ => ?_
    simp only [Function.comp_apply]
    push_cast
    ring

/-- Appending the next element extends the ascending loop by one
iteration. -/
theorem ascLoopAux_snoc (n : Nat) : ∀ a : Int,
    ascLoopAux (n + 1) a = ascLoopAux n a ++ [a + n] := by
  induction n with
  | zero => intro a; simp [ascLoopAux]
  | succ n ih =>
    intro a
    have h1 : ascLoopAux (n + 1 + 1) a = a :: ascLoopAux (n + 1) (a + 1) := rfl
    rw [h1, ih (a + 1)]
    have h2 : a + 1 + (n : Int) = a + ((n : Nat) + 1 : Nat) := by push_cast; ring
    rw [h2]
    rfl

/-- The descending loop is the reverse of the ascending loop started
`n - 1` below its start. -/
theorem descLoopAux_eq_rev (n : Nat) : ∀ i : Int,
    descLoopAux n i = (ascLoopAux n (i + 1 - n)).reverse := by
  induction n with
  | zero => intro i; rfl
  | succ n ih =>
    intro i
    have h1 : descLoopAux (n + 1) i = i :: descLoopAux n (i - 1) := rfl
    rw [h1, ih (i - 1)]
    rw [ascLoopAux_snoc n (i + 1 - (n + 1 : Nat))]
    rw [List.reverse_append]
    have h2 : i + 1 - ((n : Nat) + 1 : Nat) + (n : Int) = i := by
      push_cast; ring
    have h3 : i - 1 + 1 - (n : Int) = i + 1 - ((n : Nat) + 1 : Nat) := by
      push_cast; ring
    rw [h2, h3]
    rfl

/-- `specAsc` is the ascending loop with the run length made explicit. -/
theorem specAsc_eq_aux (a b : Int) :
    specAsc a b = ascLoopAux (b + 1 - a).toNat a := by
  unfold specAsc
  rw [ascLoopAux_eq]

/-- The Forward loop produces the ascending run. -/
theorem ascLoop_eq_spec (i toF : Int) : ascLoop i toF = specAsc i toF := by
  rw [specAsc_eq_aux]
  rfl

/-- The Reverse loop produces the reversed ascending run. -/
theorem descLoop_eq_spec (i fromF : Int) :
    descLoop i fromF = (specAsc fromF i).reverse := by
  unfold descLoop
  rw [descLoopAux_eq_rev, specAsc_eq_aux]
  by_cases h : fromF ≤ i + 1
  · have hs : i + 1 - (((i + 1 - fromF).toNat : Int)) = fromF := by omega
    rw [hs]
  · have hn : (i + 1 - fromF).toNat = 0 := by omega
    rw [hn]
    rfl

/-- The PingPong return leg equals the Reverse loop started one higher. -/
theorem descLoopGt_eq_descLoop (i fromF : Int) :
    descLoopGt i fromF = descLoop i (fromF + 1) := by
  unfold descLoopGt descLoop
  congr 1
  omega

/-- The PingPongReverse return leg equals the Forward loop stopped one
lower. -/
theorem ascLoopLt_eq_ascLoop (i toF : Int) :
    ascLoopLt i toF = ascLoop i (toF - 1) := by
  unfold ascLoopLt ascLoop
  congr 1
  omega

/-- C3: for a tag with `fromFrame ≤ toFrame`, `resolveTagFrameRange`
produces exactly the spec's playback order for each of the four
directions, and its length is `to - from + 1` for Forward/Reverse and
`2·(to - from)` (or 1 when the range is a single frame) for the
ping-pong directions. -/
theorem C3_resolveTagFrameRange (tag : Tag)
    (h : tag.fromFrame ≤ tag.toFrame) :
    (resolveTagFrameRange tag).playbackOrder =
      specPlayback tag.direction (tag.fromFrame : Int) (tag.toFrame : Int) ∧
    ((tag.direction = TagDirection.Forward ∨
        tag.direction = TagDirection.Reverse) →
      (resolveTagFrameRange tag).playbackOrder.length =
        tag.toFrame - tag.fromFrame + 1) ∧
    ((tag.direction = TagDirection.PingPong ∨
        tag.direction = TagDirection.PingPongReverse) →
      (resolveTagFrameRange tag).playbackOrder.length =
        if tag.fromFrame < tag.toFrame then 2 * (tag.toFrame - tag.fromFrame)
        else 1) := by
  have hpb : (resolveTagFrameRange tag).playbackOrder =
      specPlayback tag.direction (tag.fromFrame : Int) (tag.toFrame : Int) := by
    simp only [resolveTagFrameRange, specPlayback]
    split_ifs
    · exact ascLoop_eq_spec _ _
    · exact descLoop_eq_spec _ _
    · rw [ascLoop_eq_spec, descLoopGt_eq_descLoop, descLoop_eq_spec]
    · rw [descLoop_eq_spec, ascLoopLt_eq_ascLoop, ascLoop_eq_spec]
    · rfl
  refine ⟨hpb, ?_, ?_⟩
  · rintro (h0 | h0) <;> rw [hpb] <;>
      simp [specPlayback, h0, specAsc, TagDirection.Forward,
        TagDirection.Reverse, TagDirection.PingPong,
        TagDirection.PingPongReverse] <;>
      omega
  · rintro (h0 | h0) <;> rw [hpb] <;>
      by_cases hlt : tag.fromFrame < tag.toFrame <;>
      simp [specPlayback, h0, specAsc, hlt, TagDirection.Forward,
        TagDirection.Reverse, TagDirection.PingPong,
        TagDirection.PingPongReverse] <;>
      omega

/-- C3 witness: the ping-pong tag over frames 0–2 satisfies the
hypothesis and its playback order and length match the spec. -/
theorem C3_witness :
    walkTag.fromFrame ≤ walkTag.toFrame ∧
    ((resolveTagFrameRange walkTag).playbackOrder =
        specPlayback walkTag.direction (walkTag.fromFrame : Int)
          (walkTag.toFrame : Int) ∧
      ((walkTag.direction = TagDirection.Forward ∨
          walkTag.direction = TagDirection.Reverse) →
        (resolveTagFrameRange walkTag).playbackOrder.length =
          walkTag.toFrame - walkTag.fromFrame + 1) ∧
      ((walkTag.direction = TagDirection.PingPong ∨
          walkTag.direction = TagDirection.PingPongReverse) →
        (resolveTagFrameRange walkTag).playbackOrder.length =
          if walkTag.fromFrame < walkTag.toFrame then
            2 * (walkTag.toFrame - walkTag.fromFrame)
          else 1)) :=
  ⟨by decide, C3_resolveTagFrameRange walkTag (by decide)⟩

/-- The last element of a list is a member. -/
theorem mem_of_getLastQ {α : Type _} {l : List α} {a : α}
    (h : l.getLast? = some a) : a ∈ l := by
  induction l with
  | nil => simp at h
  | cons x xs ih =>
    cases xs with
    | nil =>
      rw [List.getLast?_singleton] at h
      simp at h
      simp [h]
    | cons y ys =>
      rw [List.getLast?_cons_cons] at h
      exact List.mem_cons_of_mem _ (ih h)

/-- In a pairwise-related list, every member relates to the last
element (or is it). -/
theorem pairwise_rel_getLast {α : Type _} {R : α → α → Prop}
    {l : List α} {a b : α} :
    l.Pairwise R → a ∈ l → l.getLast? = some b → a = b ∨ R a b := by
  induction l with
  | nil => intro _ ha; cases ha
  | cons x xs ih =>
    intro hp ha hb
    rcases List.pairwise_cons.mp hp with ⟨hx, hxs⟩
    cases xs with
    | nil =>
      rw [List.getLast?_singleton] at hb
      simp at hb
      rcases List.mem_singleton.mp ha with rfl
      left
      rw [hb]
    | cons y ys =>
      rw [List.getLast?_cons_cons] at hb
      rcases List.mem_cons.mp ha with rfl | ha
      · right
        exact hx b (mem_of_getLastQ hb)
      · exact ih hxs ha hb

/-- The break-at-first-miss loop of `getSliceAtFrame` computes, on keys
sorted by frame index, the last key passing the filter (falling back to
the accumulator). -/
theorem findApplicableKey_eq_spec (f : Nat) :
    ∀ (keys : List SliceKey) (acc : Option SliceKey),
      keys.Pairwise (fun a b => a.frameIndex ≤ b.frameIndex) →
      findApplicableKey keys f acc = (specSliceLookup keys f).or acc := by
  intro keys
  induction keys with
  | nil => intro acc _; simp [findApplicableKey, specSliceLookup]
  | cons k rest ih =>
    intro acc hp
    rcases List.pairwise_cons.mp hp with ⟨hk1, hk2⟩
    by_cases hk : k.frameIndex ≤ f
    · simp only [findApplicableKey, hk, if_true]
      rw [ih (some k) hk2]
      simp only [specSliceLookup, List.filter_cons, decide_eq_true hk,
        if_true]
      cases hfl : List.filter (fun b => decide (b.frameIndex ≤ f)) rest with
      | nil => simp [Option.or]
      | cons y ys =>
        have hne : (y :: ys).getLast? ≠ none := by
          simp [List.getLast?_eq_none_iff]
        cases hz : (y :: ys).getLast? with
        | none => exact absurd hz hne
        | some z => simp [List.getLast?_cons_cons, hz, Option.or]
    · simp only [findApplicableKey, hk, if_false]
      have hnil : List.filter (fun b => decide (b.frameIndex ≤ f)) (k :: rest) = [] := by
        rw [List.filter_eq_nil_iff]
        intro a ha
        simp only [decide_eq_true_eq]
        rcases List.mem_cons.mp ha with rfl | ha
        · exact hk
        · have := hk1 a ha
          omega
      simp [specSliceLookup, hnil, Option.or]

/-- C6: on a slice whose keys are sorted by frame index,
`getSliceAtFrame` returns the key with the greatest frame index at most
the query frame (none when no key qualifies), and the returned key's
frame index is monotone in the query frame. -/
theorem C6_getSliceAtFrame (file : AsepriteFile) (sliceName : String)
    (slices : List Slice) (slice : Slice)
    (hslices : file.slices = some slices)
    (hfind : slices.find? (fun s => s.name == sliceName) = some slice)
    (hsorted : slice.keys.Pairwise (fun a b => a.frameIndex ≤ b.frameIndex)) :
    (∀ f : Nat, getSliceAtFrame file sliceName f =
      (specSliceLookup slice.keys f).map (resolveKey sliceName)) ∧
    (∀ f key, specSliceLookup slice.keys f = some key →
      key ∈ slice.keys ∧ key.frameIndex ≤ f ∧
        ∀ k ∈ slice.keys, k.frameIndex ≤ f → k.frameIndex ≤ key.frameIndex) ∧
    (∀ f, specSliceLookup slice.keys f = none ↔
      ∀ k ∈ slice.keys, ¬ k.frameIndex ≤ f) ∧
    (∀ f1 f2 r1, f1 ≤ f2 →
      getSliceAtFrame file sliceName f1 = some r1 →
      ∃ r2, getSliceAtFrame file sliceName f2 = some r2 ∧
        r1.frameIndex ≤ r2.frameIndex) := by
  have hmain : ∀ f : Nat, getSliceAtFrame file sliceName f =
      (specSliceLookup slice.keys f).map (resolveKey sliceName) := by
    intro f
    simp only [getSliceAtFrame, hslices, hfind]
    by_cases h0 : slice.keys.length = 0
    · have hkeys : slice.keys = [] := List.length_eq_zero.mp h0
      simp [h0, hkeys, specSliceLookup]
    · simp only [h0, if_false]
      rw [findApplicableKey_eq_spec f slice.keys none hsorted, Option.or_none]
      cases hsl : specSliceLookup slice.keys f with
      | none => simp
      | some key => simp [resolveKey]
  have hspec : ∀ f key, specSliceLookup slice.keys f = some key →
      key ∈ slice.keys ∧ key.frameIndex ≤ f ∧
        ∀ k ∈ slice.keys, k.frameIndex ≤ f → k.frameIndex ≤ key.frameIndex := by
    intro f key h
    have hmem' : key ∈ slice.keys.filter (fun b => decide (b.frameIndex ≤ f)) :=
      mem_of_getLastQ h
    have hmem := List.mem_filter.mp hmem'
    refine ⟨hmem.1, by simpa using hmem.2, ?_⟩
    intro k hk hkle
    have hkf : k ∈ slice.keys.filter (fun b => decide (b.frameIndex ≤ f)) :=
      List.mem_filter.mpr ⟨hk, by simpa⟩
    have hpf := hsorted.filter (fun b => decide (b.frameIndex ≤ f))
    rcases pairwise_rel_getLast hpf hkf h with rfl | hle
    · exact le_refl _
    · exact hle
  have hnone : ∀ f, specSliceLookup slice.keys f = none ↔
      ∀ k ∈ slice.keys, ¬ k.frameIndex ≤ f := by
    intro f
    rw [specSliceLookup, List.getLast?_eq_none_iff, List.filter_eq_nil_iff]
    simp
  refine ⟨hmain, hspec, hnone, ?_⟩
  intro f1 f2 r1 hf h1
  rw [hmain f1] at h1
  cases hsl1 : specSliceLookup slice.keys f1 with
  | none => rw [hsl1] at h1; simp at h1
  | some key1 =>
    rw [hsl1] at h1
    simp only [Option.map_some'] at h1
    have h1' := Option.some.inj h1
    obtain ⟨hk1mem, hk1le, _⟩ := hspec f1 key1 hsl1
    cases hsl2 : specSliceLookup slice.keys f2 with
    | none =>
      exact absurd (((hnone f2).mp hsl2) key1 hk1mem) (by omega)
    | some key2 =>
      refine ⟨resolveKey sliceName key2, ?_, ?_⟩
      · rw [hmain f2, hsl2]
        rfl
      · obtain ⟨_, _, hmax2⟩ := hspec f2 key2 hsl2
        have hle12 := hmax2 key1 hk1mem (le_trans hk1le hf)
        rw [← h1']
        simpa [resolveKey] using hle12

/-- C6 witness: the slice with keys at frames 0 and 2 satisfies the
hypotheses, and the lookup at frame 1 is resolved by the spec rule. -/
theorem C6_witness :
    (sliceFile.slices = some [hitSlice] ∧
      [hitSlice].find? (fun s => s.name == "hit") = some hitSlice ∧
      hitSlice.keys.Pairwise (fun a b => a.frameIndex ≤ b.frameIndex)) ∧
    getSliceAtFrame sliceFile "hit" 1 =
      (specSliceLookup hitSlice.keys 1).map (resolveKey "hit") :=
  ⟨⟨rfl, rfl, by decide⟩,
    (C6_getSliceAtFrame sliceFile "hit" [hitSlice] hitSlice rfl rfl
      (by decide)).1 1⟩

/-- On the self-linked cel, each hop reproduces the same call: no fuel
suffices. -/
theorem resolveLinkedCelF_cyclic (n : Nat) :
    resolveLinkedCelF n cyclicFile cyclicCel = none := by
  induction n with
  | zero => rfl
  | succ n ih => exact ih

/-- C5 counterexample: `resolveLinkedCel` does not terminate on a
decodable file containing a cel in frame 0 that links back to frame 0 on
its own layer — the recursion revisits the same cel forever. -/
theorem C5_counterexample : ¬ ResolveTerminates cyclicFile cyclicCel := by
  rintro ⟨n, hn⟩
  rw [resolveLinkedCelF_cyclic n] at hn
  simp at hn

/-- C5 amended: whenever the recursion of `resolveLinkedCel` completes
(which can fail only on cyclic link chains), the result is a non-Linked
cel or an `INVALID_LINKED_CEL` error; a non-Linked cel is returned
unchanged; and a Linked hop errors exactly when its frame index is out
of range or the target frame has no cel with the same layer index,
otherwise continuing with that cel. -/
theorem C5_resolveLinkedCel :
    (∀ (file : AsepriteFile) (cel : Cel) (n : Nat) (r : Except JsError Cel),
      resolveLinkedCelF n file cel = some r →
      (∃ c, r = .ok c ∧ c.isLinked = false) ∨
      (∃ msg, r = .error (.aseFormatError msg INVALID_LINKED_CEL))) ∧
    (∀ (file : AsepriteFile) (cel : Cel) (n : Nat),
      cel.isLinked = false →
      resolveLinkedCelF (n + 1) file cel = some (.ok cel)) ∧
    (∀ (file : AsepriteFile) (cel : Cel) (n idx : Nat),
      cel.variant = .linked idx →
      (file.frames.length ≤ idx ∨
        (file.frames.getD idx ⟨0, [], none⟩).cels.find?
          (fun c => c.layerIndex == cel.layerIndex) = none) →
      ∃ msg, resolveLinkedCelF (n + 1) file cel =
        some (.error (.aseFormatError msg INVALID_LINKED_CEL))) ∧
    (∀ (file : AsepriteFile) (cel : Cel) (n idx : Nat) (m : Cel),
      cel.variant = .linked idx →
      idx < file.frames.length →
      (file.frames.getD idx ⟨0, [], none⟩).cels.find?
        (fun c => c.layerIndex == cel.layerIndex) = some m →
      resolveLinkedCelF (n + 1) file cel = resolveLinkedCelF n file m) := by
  refine ⟨?_, ?_, ?_, ?_⟩
  · intro file cel n
    induction n generalizing cel with
    | zero => intro r h; simp [resolveLinkedCelF] at h
    | succ n ih =>
      intro r h
      rw [resolveLinkedCelF] at h
      cases hcv : cel.variant with
      | linked idx =>
        simp only [hcv] at h
        by_cases hlen : file.frames.length ≤ idx
        · rw [if_pos hlen] at h
          right
          exact ⟨_, (Option.some.inj h).symm⟩
        · rw [if_neg hlen] at h
          cases hfind : (file.frames.getD idx ⟨0, [], none⟩).cels.find?
              (fun c => c.layerIndex == cel.layerIndex) with
          | none =>
            rw [hfind] at h
            right
            exact ⟨_, (Option.some.inj h).symm⟩
          | some m =>
            rw [hfind] at h
            exact ih m r h
      | rawImage w hgt bs =>
        simp only [hcv] at h
        left
        exact ⟨cel, (Option.some.inj h).symm, by simp [Cel.isLinked, hcv]⟩
      | compressedImage w hgt bs =>
        simp only [hcv] at h
        left
        exact ⟨cel, (Option.some.inj h).symm, by simp [Cel.isLinked, hcv]⟩
      | compressedTilemap w hgt bpt masks bs =>
        simp only [hcv] at h
        left
        exact ⟨cel, (Option.some.inj h).symm, by simp [Cel.isLinked, hcv]⟩
  · intro file cel n hnl
    rw [resolveLinkedCelF]
    cases hcv : cel.variant with
    | linked idx => simp [Cel.isLinked, hcv] at hnl
    | rawImage w hgt bs => simp only [hcv]
    | compressedImage w hgt bs => simp only [hcv]
    | compressedTilemap w hgt bpt masks bs => simp only [hcv]
  · intro file cel n idx hcv hbad
    rw [resolveLinkedCelF]
    simp only [hcv]
    rcases hbad with hlen | hfind
    · rw [if_pos hlen]
      exact ⟨_, rfl⟩
    · by_cases hlen : file.frames.length ≤ idx
      · rw [if_pos hlen]
        exact ⟨_, rfl⟩
      · rw [if_neg hlen, hfind]
        exact ⟨_, rfl⟩
  · intro file cel n idx m hcv hlen hfind
    rw [resolveLinkedCelF]
    simp only [hcv]
    rw [if_neg (by omega), hfind]

/-- C5 witness: in the two-frame file, resolving the frame-1 linked cel
takes one hop to the frame-0 raw cel and returns it. -/
theorem C5_witness :
    resolveLinkedCelF 2 linkFile linkedCel = some (.ok baseCel) ∧
    baseCel.isLinked = false :=
  ⟨(C5_resolveLinkedCel.2.2.2 linkFile linkedCel 1 0 baseCel rfl (by decide)
      rfl).trans
    (C5_resolveLinkedCel.2.1 linkFile baseCel 0 rfl),
   rfl⟩

/-- C8: decoding a cel chunk whose variant tag is 4 (not one of the four
known values) fails, but with the source's plain `Error`, not an
`AseFormatError` carrying `INVALID_CEL_TYPE` as the spec's error
taxonomy prescribes. -/
theorem C8_code_divergence :
    parseCelChunk ⟨badCelBytes, 0⟩ 16 =
      .error (.plainError "Unknown cel type: 4") := by
  rfl

/-- C9 counterexample: encoding user data whose properties hold an
unknown-type placeholder (raw bytes were never preserved) succeeds —
the placeholder is silently emitted with the Null type tag and no
payload, instead of failing with `BadChunkSize`. -/
theorem C9_counterexample :
    encodeUserDataChunk placeholderUserData =
      .ok [.wu32 4, .wu32 1, .wu32 1, .wu32 1, .wu16 3, .wstrBytes "foo",
           .wu16 0] := by
  rfl

/-- C9 amended: the encoder maps a decode placeholder to the Null type
tag and emits no value bytes for it; a properties entry holding a
placeholder contributes its name and a Null tag and never raises an
error of its own. -/
theorem C9_placeholder_encoding :
    (∀ t : Nat, getPropertyType (.vUnknown t) = PropertyType.Null ∧
      encodePropertyValue (.vUnknown t) (getPropertyType (.vUnknown t)) =
        .ok []) ∧
    (∀ (name : String) (t : Nat) (rest : List (String × PropertyValue))
      (ops : List WriteOp),
      writeString name = .ok ops →
      encodeMapEntries ((name, .vUnknown t) :: rest) =
        Except.map
          (fun restOps => ops ++ [.wu16 (PropertyType.Null : Int)] ++ restOps)
          (encodeMapEntries rest)) := by
  refine ⟨fun t => ⟨rfl, rfl⟩, ?_⟩
  intro name t rest ops hws
  have h1 : getPropertyType (PropertyValue.vUnknown t) = PropertyType.Null :=
    rfl
  have h2 : encodePropertyValue (PropertyValue.vUnknown t)
      PropertyType.Null = .ok [] := rfl
  simp only [encodeMapEntries, hws]
  cases hrest : encodeMapEntries rest with
  | error e => simp [hrest, Except.map, Bind.bind, Except.bind, h1, h2]
  | ok l => simp [hrest, Except.map, Bind.bind, Except.bind, h1, h2]

/-- C9 witness for the properties-entry part: the key "foo" encodes and
the placeholder entry contributes exactly the Null-tagged record. -/
theorem C9_placeholder_encoding_witness :
    writeString "foo" = .ok [.wu16 3, .wstrBytes "foo"] ∧
    encodeMapEntries [("foo", .vUnknown 0x9999)] =
      Except.map
        (fun restOps =>
          [WriteOp.wu16 3, .wstrBytes "foo"] ++
            [.wu16 (PropertyType.Null : Int)] ++ restOps)
        (encodeMapEntries []) :=
  ⟨rfl, C9_placeholder_encoding.2 "foo" 0x9999 []
    [.wu16 3, .wstrBytes "foo"] rfl⟩

/-! ### The attachment cursor never points at the sprite (C1, C10) -/

/-- The non-tag attachment arms change neither the attach target nor the
sprite-level user data. -/
theorem applyUserDataNonTag_preserves (s : ParseState) (u : UserData) :
    (applyUserDataNonTag s u).ctx.lastAttachTarget =
      s.ctx.lastAttachTarget ∧
    (applyUserDataNonTag s u).spriteUserData = s.spriteUserData := by
  unfold applyUserDataNonTag
  cases hpt : s.ctx.pendingTilesetUserData with
  | some pt => cases hph : pt.phase <;> simp [hph]
  | none =>
    cases hat : s.ctx.lastAttachTarget with
    | none => simp [hat]
    | some t =>
      cases t with
      | celT f i =>
        unfold attachUserDataToCel
        by_cases hf : f = s.ctx.frameIndex <;> simp [hf, hat]
      | layerT i => simp [hat]
      | sliceT i => simp [hat]
      | tilesetT i => simp [hat]
      | spriteT => simp [hat]

/-- The full attachment cascade changes neither the attach target, the
frame index, nor the sprite-level user data. -/
theorem applyUserDataAttach_preserves (s : ParseState) (u : UserData) :
    (applyUserDataAttach s u).ctx.lastAttachTarget =
      s.ctx.lastAttachTarget ∧
    (applyUserDataAttach s u).spriteUserData = s.spriteUserData := by
  unfold applyUserDataAttach
  cases hp : s.ctx.pendingTagUserData with
  | none => exact applyUserDataNonTag_preserves s u
  | some p =>
    by_cases hi : p.i < p.count
    · simp [hi]
    · simp only [hi, if_false]
      exact applyUserDataNonTag_preserves s u

/-- One chunk step keeps the invariant: the attach target is never the
sprite and no sprite-level user data is recorded. -/
theorem applyChunk_noSprite (options : ParseOptions) (s : ParseState)
    (ch : Chunk)
    (h1 : s.ctx.lastAttachTarget ≠ some .spriteT)
    (h2 : s.spriteUserData = none) :
    (applyChunk options s ch).ctx.lastAttachTarget ≠ some .spriteT ∧
    (applyChunk options s ch).spriteUserData = none := by
  have hwrap : ∀ s1 : ParseState,
      (if options.preserveChunks then
        { s1 with curChunks := s1.curChunks ++ [ch] } else s1).ctx =
        s1.ctx ∧
      (if options.preserveChunks then
        { s1 with curChunks := s1.curChunks ++ [ch] } else s1).spriteUserData =
        s1.spriteUserData := by
    intro s1
    by_cases hp : options.preserveChunks <;> simp [hp]
  cases ch with
  | userDataChunk u =>
    have hp := applyUserDataAttach_preserves s u
    have hcond : ¬ ((applyUserDataAttach s u).ctx.frameIndex = 0 ∧
        (applyUserDataAttach s u).ctx.lastAttachTarget = some .spriteT) := by
      rintro ⟨_, hsp⟩
      rw [hp.1] at hsp
      exact h1 hsp
    unfold applyChunk
    rcases hwrap (applyUserDataAttach s u) with ⟨hw1, hw2⟩
    simp only [hcond, if_false]
    rw [hw1, hw2, hp.1, hp.2]
    exact ⟨h1, h2⟩
  | layerChunk layer =>
    unfold applyChunk
    by_cases hp : options.preserveChunks <;> simp [hp, h2]
  | celChunk cel =>
    unfold applyChunk
    by_cases hp : options.preserveChunks <;> simp [hp, h2]
  | celExtraChunk extra =>
    unfold applyChunk
    cases hlc : s.ctx.lastCel with
    | none => by_cases hp : options.preserveChunks <;> simp [hp, h1, h2]
    | some fi =>
      unfold attachExtraToCel
      by_cases hf : fi.1 = s.ctx.frameIndex <;>
        by_cases hp : options.preserveChunks <;> simp [hf, hp, h1, h2]
  | paletteChunk p =>
    unfold applyChunk
    by_cases hp : options.preserveChunks <;> simp [hp, h2]
  | oldPaletteChunk ty packets =>
    unfold applyChunk
    by_cases hp : options.preserveChunks <;> simp [hp, h2]
  | tagsChunk newTags =>
    unfold applyChunk
    by_cases hp : options.preserveChunks <;> simp [hp, h2]
  | sliceChunk slice =>
    unfold applyChunk
    by_cases hp : options.preserveChunks <;> simp [hp, h2]
  | tilesetChunk ts =>
    unfold applyChunk
    by_cases hp : options.preserveChunks <;> simp [hp, h2]
  | colorProfileChunk p =>
    unfold applyChunk
    by_cases hp : options.preserveChunks <;> simp [hp, h2]
  | externalFilesChunk fs =>
    unfold applyChunk
    by_cases hp : options.preserveChunks <;> simp [hp, h2]
  | unknownChunk ty raw =>
    unfold applyChunk
    by_cases hk : ty ∈ knownChunkTypes <;>
      by_cases hp : options.preserveChunks <;> simp [hk, hp, h1, h2]

/-- The chunk loop keeps the invariant. -/
theorem foldl_applyChunk_noSprite (options : ParseOptions)
    (chs : List Chunk) : ∀ s : ParseState,
    s.ctx.lastAttachTarget ≠ some .spriteT → s.spriteUserData = none →
    (chs.foldl (applyChunk options) s).ctx.lastAttachTarget ≠
      some .spriteT ∧
    (chs.foldl (applyChunk options) s).spriteUserData = none := by
  induction chs with
  | nil => intro s h1 h2; exact ⟨h1, h2⟩
  | cons ch rest ih =>
    intro s h1 h2
    rcases applyChunk_noSprite options s ch h1 h2 with ⟨h1', h2'⟩
    exact ih (applyChunk options s ch) h1' h2'

/-- A frame iteration keeps the invariant. -/
theorem runFrame_noSprite (options : ParseOptions) (header : AseHeader)
    (s : ParseState) (fev : FrameEv)
    (h1 : s.ctx.lastAttachTarget ≠ some .spriteT)
    (h2 : s.spriteUserData = none) :
    (runFrame options header s fev).ctx.lastAttachTarget ≠ some .spriteT ∧
    (runFrame options header s fev).spriteUserData = none := by
  have h := foldl_applyChunk_noSprite options fev.chunks ({ s with ctx := { s.ctx with lastCel := none }, curCels := [], curChunks := [] }) (by simpa using h1) (by simpa using h2)
  exact ⟨by simpa [runFrame] using h.1, by simpa [runFrame] using h.2⟩

/-- The frame loop keeps the invariant. -/
theorem runFrames_noSprite (options : ParseOptions) (header : AseHeader) :
    ∀ (fevs : List FrameEv) (idx : Nat) (s : ParseState),
    s.ctx.lastAttachTarget ≠ some .spriteT → s.spriteUserData = none →
    (runFrames options header idx s fevs).ctx.lastAttachTarget ≠
      some .spriteT ∧
    (runFrames options header idx s fevs).spriteUserData = none := by
  intro fevs
  induction fevs with
  | nil => intro idx s h1 h2; exact ⟨h1, h2⟩
  | cons fev rest ih =>
    intro idx s h1 h2
    have h := runFrame_noSprite options header
      { s with ctx := { s.ctx with frameIndex := idx } } fev
      (by simpa using h1) (by simpa using h2)
    exact ih (idx + 1) _ h.1 h.2

/-- C10: the decoder never produces sprite-level user data — for every
chunk-event stream (hence every decodable byte input) and every parse
options value, the resulting file's `userData` field is absent, because
no transition ever sets the attach target to the sprite. -/
theorem C10_no_sprite_userData (header : AseHeader)
    (frameEvs : List FrameEv) (options : ParseOptions) :
    (parseAsepriteEvents header frameEvs options).userData = none := by
  unfold parseAsepriteEvents
  exact (runFrames_noSprite options header frameEvs 0 initState
    (by simp [initState]) rfl).2

/-- C1: evaluating the decoder on the claim's own scenario — a UserData
chunk arriving in frame 0 with no pending cursors and no attach target —
shows the chunk is preserved in the frame's chunk list but the decoded
file's sprite-level `userData` stays absent, contradicting the spec's
sprite-level attachment rule (the source's `"sprite"` case is
unreachable). -/
theorem C1_code_divergence :
    (parseAsepriteEvents emptyHeader c1Frames defaultOptions).userData =
      none ∧
    (parseAsepriteEvents emptyHeader c1Frames defaultOptions).frames =
      [⟨100, [], some [.userDataChunk udSample]⟩] :=
  ⟨rfl, rfl⟩

end Ase
